import Mathlib

/-
Verification of the VBMS backend affiliate commission lifecycle and the
surrounding route handlers, as a shallow embedding in Lean.

Money amounts and rates are JavaScript numbers in the source; they are
modelled as rationals. Dates are modelled as abstract natural-number
timestamps supplied by the caller. Mongo subdocument ids are modelled as
natural numbers carried on each embedded record.
-/

namespace VBMS

/-- Status enum of an embedded commission record
    (models/Affiliate.js, commissions.status). -/
inductive CommissionStatus where
  | pending
  | approved
  | paid
  | cancelled
deriving DecidableEq, Repr

/-- Status enum of an embedded referral record
    (models/Affiliate.js, referrals.status). -/
inductive ReferralStatus where
  | signup
  | converted
  | churned
deriving DecidableEq, Repr

/-- One embedded commission record of an affiliate document
    (models/Affiliate.js, the commissions array). -/
structure Commission where
  commissionId : Nat
  orderId : String
  customerId : Nat
  orderAmount : Rat
  commissionAmount : Rat
  commissionRate : Rat
  status : CommissionStatus
  approvedBy : Option Nat
  approvedAt : Option Nat
  paidAt : Option Nat
  paymentMethod : Option String
  paymentReference : Option String
  createdAt : Nat
deriving DecidableEq, Repr

/-- One embedded referral record of an affiliate document
    (models/Affiliate.js, the referrals array). -/
structure Referral where
  referralId : Nat
  customerId : Nat
  customerEmail : String
  signupDate : Nat
  firstPurchaseDate : Option Nat
  totalSpent : Rat
  commissionEarned : Rat
  status : ReferralStatus
deriving DecidableEq, Repr

/-- The stats subdocument of an affiliate (models/Affiliate.js). -/
structure AffiliateStats where
  totalReferrals : Nat
  successfulReferrals : Nat
  totalCommissionEarned : Rat
  totalCommissionPaid : Rat
  pendingCommission : Rat
  conversionRate : Rat
  averageOrderValue : Rat
  lifetimeValue : Rat
deriving DecidableEq, Repr

/-- An affiliate document, restricted to the fields the examined methods
    and routes read or write (models/Affiliate.js). -/
structure Affiliate where
  name : String
  email : String
  affStatus : String
  commissionRate : Rat
  stats : AffiliateStats
  referrals : List Referral
  commissions : List Commission
deriving DecidableEq, Repr

/-- Order data passed to recordConversion: an order id and amount. -/
structure OrderData where
  orderId : String
  amount : Rat
deriving DecidableEq, Repr

/-- Payment data passed to payCommission: method and reference. -/
structure PaymentData where
  method : String
  reference : String
deriving DecidableEq, Repr

/-- Mongoose subdocument lookup followed by in-place mutation: the array
    method id(x) returns the first element whose id matches and the caller
    mutates it; all other elements are untouched. -/
def updateFirst (idOf : α → Nat) (target : Nat) (f : α → α) : List α → List α
  | [] => []
  | x :: xs =>
    if idOf x == target then f x :: xs else x :: updateFirst idOf target f xs

/-- Virtual calculatedConversionRate (models/Affiliate.js lines 202-205):
    0 when totalReferrals is 0, otherwise the success ratio times 100. -/
def calculatedConversionRate (a : Affiliate) : Rat :=
  if a.stats.totalReferrals = 0 then 0
  else ((a.stats.successfulReferrals : Rat) / (a.stats.totalReferrals : Rat)) * 100

/-- Virtual pendingPayout (models/Affiliate.js lines 208-210). -/
def pendingPayout (a : Affiliate) : Rat :=
  a.stats.totalCommissionEarned - a.stats.totalCommissionPaid

/-- Method addReferral (models/Affiliate.js lines 213-221): push a new
    referral with schema defaults and increment totalReferrals. -/
def addReferral (a : Affiliate) (newId customerId : Nat) (email : String)
    (now : Nat) : Affiliate :=
  { a with
    referrals := a.referrals ++ [{
      referralId := newId
      customerId := customerId
      customerEmail := email
      signupDate := now
      firstPurchaseDate := none
      totalSpent := 0
      commissionEarned := 0
      status := ReferralStatus.signup }]
    stats := { a.stats with totalReferrals := a.stats.totalReferrals + 1 } }

/-- Method recordConversion (models/Affiliate.js lines 223-251): if the
    referral id resolves, mark the referral converted, push a pending
    commission of amount times commissionRate, bump the counters and store
    the calculatedConversionRate virtual into stats.conversionRate. -/
def recordConversion (a : Affiliate) (rid : Nat) (od : OrderData)
    (newId now : Nat) : Affiliate :=
  match a.referrals.find? (fun r => r.referralId == rid) with
  | none => a
  | some referral =>
    let commissionAmount := od.amount * a.commissionRate
    let referrals' := updateFirst (fun r => r.referralId) rid
      (fun r => { r with
        status := ReferralStatus.converted
        firstPurchaseDate := some now
        totalSpent := od.amount
        commissionEarned := commissionAmount }) a.referrals
    let commissions' := a.commissions ++ [{
      commissionId := newId
      orderId := od.orderId
      customerId := referral.customerId
      orderAmount := od.amount
      commissionAmount := commissionAmount
      commissionRate := a.commissionRate
      status := CommissionStatus.pending
      approvedBy := none
      approvedAt := none
      paidAt := none
      paymentMethod := none
      paymentReference := none
      createdAt := now }]
    let stats' := { a.stats with
      successfulReferrals := a.stats.successfulReferrals + 1
      totalCommissionEarned := a.stats.totalCommissionEarned + commissionAmount
      pendingCommission := a.stats.pendingCommission + commissionAmount }
    let a' := { a with
      referrals := referrals', commissions := commissions', stats := stats' }
    { a' with stats := { stats' with conversionRate := calculatedConversionRate a' } }

/-- Method approveCommission (models/Affiliate.js lines 253-261): if the
    commission id resolves and its status is pending, set it approved and
    record approver and timestamp; otherwise change nothing. -/
def approveCommission (a : Affiliate) (cid adminId now : Nat) : Affiliate :=
  match a.commissions.find? (fun c => c.commissionId == cid) with
  | none => a
  | some commission =>
    if commission.status = CommissionStatus.pending then
      { a with commissions := (updateFirst (fun c => c.commissionId) cid
          (fun c => { c with
            status := CommissionStatus.approved
            approvedBy := some adminId
            approvedAt := some now }) a.commissions) }
    else a

/-- Method payCommission (models/Affiliate.js lines 263-276): if the
    commission id resolves and its status is approved, set it paid, record
    payment fields, and move its amount from pendingCommission to
    totalCommissionPaid; otherwise change nothing. -/
def payCommission (a : Affiliate) (cid : Nat) (pd : PaymentData) (now : Nat) :
    Affiliate :=
  match a.commissions.find? (fun c => c.commissionId == cid) with
  | none => a
  | some commission =>
    if commission.status = CommissionStatus.approved then
      { a with
        commissions := (updateFirst (fun c => c.commissionId) cid
          (fun c => { c with
            status := CommissionStatus.paid
            paidAt := some now
            paymentMethod := some pd.method
            paymentReference := some pd.reference }) a.commissions)
        stats := { a.stats with
          totalCommissionPaid :=
            a.stats.totalCommissionPaid + commission.commissionAmount
          pendingCommission :=
            a.stats.pendingCommission - commission.commissionAmount } }
    else a

/-- Sum of the commissionAmount of the commissions whose status is pending
    or approved, the quantity named by the spec invariant. -/
def pendingApprovedSum (l : List Commission) : Rat :=
  ((l.filter (fun c => c.status == CommissionStatus.pending
      || c.status == CommissionStatus.approved)).map
    (fun c => c.commissionAmount)).sum

/-- One lifecycle operation on an affiliate document. addReferral is
    included so that recordConversion has referrals to convert; it touches
    neither commission list nor any money counter. -/
inductive AffiliateOp where
  | newReferral (newId customerId : Nat) (email : String) (now : Nat)
  | record (rid : Nat) (od : OrderData) (newId now : Nat)
  | approve (cid adminId now : Nat)
  | pay (cid : Nat) (pd : PaymentData) (now : Nat)

/-- Interpret one lifecycle operation. -/
def applyOp (a : Affiliate) : AffiliateOp → Affiliate
  | AffiliateOp.newReferral newId customerId email now =>
      addReferral a newId customerId email now
  | AffiliateOp.record rid od newId now => recordConversion a rid od newId now
  | AffiliateOp.approve cid adminId now => approveCommission a cid adminId now
  | AffiliateOp.pay cid pd now => payCommission a cid pd now

/-- Interpret a sequence of lifecycle operations, first to last. -/
def applyOps (a : Affiliate) (ops : List AffiliateOp) : Affiliate :=
  ops.foldl applyOp a

/-- A freshly created affiliate: all stats fields at their schema default 0,
    no referrals, no commissions. -/
def freshAffiliate (name email : String) (rate : Rat) : Affiliate :=
  { name := name
    email := email
    affStatus := "active"
    commissionRate := rate
    stats := {
      totalReferrals := 0
      successfulReferrals := 0
      totalCommissionEarned := 0
      totalCommissionPaid := 0
      pendingCommission := 0
      conversionRate := 0
      averageOrderValue := 0
      lifetimeValue := 0 }
    referrals := []
    commissions := [] }

/-- The JSON envelope a route sends back: HTTP status code, success flag,
    message. -/
structure RouteResponse where
  httpStatus : Nat
  success : Bool
  message : String
deriving DecidableEq, Repr

/-- Route POST /:id/commissions/:commissionId/approve (affiliate routes,
    lines 629-654): 404 when the affiliate is missing, otherwise run
    approveCommission and answer with a success envelope unconditionally. -/
def approveCommissionRoute (aff : Option Affiliate) (cid adminId now : Nat) :
    Option Affiliate × RouteResponse :=
  match aff with
  | none => (none, ⟨404, false, "Affiliate not found"⟩)
  | some a => (some (approveCommission a cid adminId now),
      ⟨200, true, "Commission approved successfully"⟩)

/-- Route POST /:id/commissions/:commissionId/pay (affiliate routes, lines
    659-689): 404 when the affiliate is missing, otherwise run payCommission
    and answer with a success envelope unconditionally. -/
def payCommissionRoute (aff : Option Affiliate) (cid : Nat) (pd : PaymentData)
    (now : Nat) : Option Affiliate × RouteResponse :=
  match aff with
  | none => (none, ⟨404, false, "Affiliate not found"⟩)
  | some a => (some (payCommission a cid pd now),
      ⟨200, true, "Commission paid successfully"⟩)

/-- Modelled from the spec: the document database evaluates a find query as
    a sorted result list, and skip and limit take the subrange. The handlers
    below receive that sorted result list directly; skip n followed by
    limit k is List.drop n then List.take k. -/
def pageSlice (sorted : List α) (page limit : Nat) : List α :=
  (sorted.drop ((page - 1) * limit)).take limit

/-- The expression Math.ceil(total / limit) of the list handlers, evaluated
    over exact rationals. -/
def mathCeilPages (total limit : Nat) : Nat :=
  Nat.ceil ((total : Rat) / (limit : Rat))

/-- Response of the affiliate list route (affiliate routes, lines 383-468):
    the page slice plus a pagination block. -/
structure AffiliatesListPage (α : Type) where
  affiliates : List α
  currentPage : Nat
  totalPages : Nat
  totalItems : Nat
  itemsPerPage : Nat
deriving DecidableEq, Repr

/-- Route GET / of the affiliate router: slice the sorted filtered result
    and report Math.ceil(total / limit) pages. -/
def affiliatesListRoute (sorted : List α) (page limit : Nat) :
    AffiliatesListPage α :=
  { affiliates := pageSlice sorted page limit
    currentPage := page
    totalPages := mathCeilPages sorted.length limit
    totalItems := sorted.length
    itemsPerPage := limit }

/-- Response of GET /customers (routes/admin.js lines 49-86). -/
structure CustomersListPage (α : Type) where
  customers : List α
  currentPage : Nat
  totalPages : Nat
  totalCustomers : Nat
deriving DecidableEq, Repr

/-- Route GET /customers of the admin router. -/
def customersListRoute (sorted : List α) (page limit : Nat) :
    CustomersListPage α :=
  { customers := pageSlice sorted page limit
    currentPage := page
    totalPages := mathCeilPages sorted.length limit
    totalCustomers := sorted.length }

/-- Response of GET /files/:category (settings routes, lines 330-366). -/
structure FilesListPage (α : Type) where
  files : List α
  current : Nat
  pages : Nat
  total : Nat
  limit : Nat
deriving DecidableEq, Repr

/-- Route GET /files/:category of the settings router. -/
def filesListRoute (sorted : List α) (page limit : Nat) : FilesListPage α :=
  { files := pageSlice sorted page limit
    current := page
    pages := mathCeilPages sorted.length limit
    total := sorted.length
    limit := limit }

/-- A user document, restricted to the fields the examined handlers touch
    (models/User.js). -/
structure UserDoc where
  name : String
  email : String
  password : String
  role : String
  position : String
  userStatus : String
deriving DecidableEq, Repr

/-- Body of POST /register (auth routes). -/
structure RegisterRequest where
  name : String
  email : String
  password : String
  business : String
  position : String
  role : String
deriving DecidableEq, Repr

/-- Route POST /register (auth routes, lines 8-24 of the register handler):
    409 when a user with exactly that email exists, otherwise create the
    user, defaulting empty position to Member and empty role to Client.
    Returns the new collection and the HTTP status. -/
def registerRoute (users : List UserDoc) (rq : RegisterRequest) :
    List UserDoc × Nat :=
  match users.find? (fun u => u.email == rq.email) with
  | some _ => (users, 409)
  | none =>
    (users ++ [{
      name := rq.name
      email := rq.email
      password := rq.password
      role := if rq.role = "" then "Client" else rq.role
      position := if rq.position = "" then "Member" else rq.position
      userStatus := "Active" }], 201)

/-- Body of POST /create-user (routes/users.js). -/
structure CreateUserRequest where
  name : String
  email : String
  password : String
  role : String
  reqStatus : String
deriving DecidableEq, Repr

/-- The JavaScript toLowerCase on the ASCII alphabet, written as a
    structural map over the characters of the string. -/
def jsToLower (s : String) : String := { data := s.data.map Char.toLower }

/-- The role whitelist of routes/users.js line 41. -/
def validRoles : List String :=
  ["admin", "main_admin", "support", "customer", "client"]

/-- Route POST /create-user (routes/users.js lines 17-91): 403 unless the
    requester is main_admin, 400 on a missing field or an invalid role, 409
    when a user with the lowercased email exists, otherwise create the user.
    Returns the new collection, the HTTP status and the message. -/
def createUserRoute (requesterRole : String) (users : List UserDoc)
    (rq : CreateUserRequest) : List UserDoc × Nat × String :=
  if requesterRole != "main_admin" then
    (users, 403, "Only main administrators can create new users.")
  else if rq.name = "" || rq.email = "" || rq.password = "" || rq.role = "" then
    (users, 400, "Name, email, password, and role are required.")
  else if !(validRoles.contains (jsToLower rq.role)) then
    (users, 400, "Invalid role specified.")
  else
    match users.find? (fun u => u.email == jsToLower rq.email) with
    | some _ => (users, 409, "A user with this email already exists.")
    | none =>
      (users ++ [{
        name := rq.name.trim
        email := (jsToLower rq.email).trim
        password := rq.password
        role := jsToLower rq.role
        position := "Member"
        userStatus := if rq.reqStatus = "" then "active" else rq.reqStatus }],
       201, "User created successfully.")

/-- Route POST / of the affiliate router (lines 505-558): 409 when an
    affiliate with the lowercased email exists, otherwise create an active
    affiliate with the given commission rate. -/
def createAffiliateRoute (affs : List Affiliate) (name email : String)
    (rate : Rat) : List Affiliate × Nat :=
  match affs.find? (fun x => x.email == jsToLower email) with
  | some _ => (affs, 409)
  | none => (affs ++ [freshAffiliate name (jsToLower email) rate], 201)

/-- The status whitelist of PUT /customers/:id/status
    (routes/admin.js line 127). -/
def allowedCustomerStatuses : List String := ["active", "inactive", "suspended"]

/-- The status enum of the User schema (models/User.js), which also
    allows pending. -/
def userStatusEnum : List String := ["active", "inactive", "suspended", "pending"]

/-- Route PUT /customers/:id/status (routes/admin.js lines 123-142): 400
    with Invalid status unless the body value is whitelisted, otherwise set
    the status field of the customer document. -/
def updateCustomerStatusRoute (customer : Option UserDoc) (status : String) :
    Option UserDoc × Nat × String :=
  if !(allowedCustomerStatuses.contains status) then
    (customer, 400, "Invalid status")
  else
    match customer with
    | some u => (some { u with userStatus := status }, 200,
        "Customer status updated to " ++ status)
    | none => (none, 200, "Customer status updated to " ++ status)

/-- The amount a single commission contributes to the pending plus approved
    sum: its commissionAmount while pending or approved, otherwise 0. -/
def commissionContribution (c : Commission) : Rat :=
  if c.status = CommissionStatus.pending ∨ c.status = CommissionStatus.approved
  then c.commissionAmount else 0

theorem find?_cons_eq (p : α → Bool) (y : α) (ys : List α) :
    List.find? p (y :: ys) = if p y then some y else List.find? p ys := by
  cases h : p y <;> simp [List.find?, h]

theorem pendingApprovedSum_nil : pendingApprovedSum [] = 0 := rfl

theorem pendingApprovedSum_cons (c : Commission) (l : List Commission) :
    pendingApprovedSum (c :: l) =
      commissionContribution c + pendingApprovedSum l := by
  simp only [pendingApprovedSum, commissionContribution, List.filter_cons]
  by_cases h : (c.status == CommissionStatus.pending
      || c.status == CommissionStatus.approved) = true
  · have h2 : c.status = CommissionStatus.pending
        ∨ c.status = CommissionStatus.approved := by simpa using h
    rw [if_pos h, if_pos h2]
    simp
  · have h2 : ¬(c.status = CommissionStatus.pending
        ∨ c.status = CommissionStatus.approved) := by simpa using h
    rw [if_neg h, if_neg h2]
    simp

theorem pendingApprovedSum_append (l₁ l₂ : List Commission) :
    pendingApprovedSum (l₁ ++ l₂) =
      pendingApprovedSum l₁ + pendingApprovedSum l₂ := by
  simp [pendingApprovedSum, List.filter_append]

theorem find?_updateFirst (idOf : α → Nat) (t : Nat) (f : α → α)
    (l : List α) (x₀ : α)
    (h : l.find? (fun x => idOf x == t) = some x₀)
    (hid : idOf (f x₀) = idOf x₀) :
    (updateFirst idOf t f l).find? (fun x => idOf x == t) = some (f x₀) := by
  induction l with
  | nil => simp at h
  | cons y ys ih =>
    by_cases hy : (idOf y == t) = true
    · have hyx : y = x₀ := by
        rw [find?_cons_eq, if_pos hy] at h
        exact Option.some.inj h
      subst hyx
      have hft : (idOf (f y) == t) = true := by
        rw [beq_iff_eq] at hy ⊢
        rw [hid, hy]
      simp only [updateFirst, hy, if_pos]
      rw [find?_cons_eq, if_pos hft]
    · have hys : ys.find? (fun x => idOf x == t) = some x₀ := by
        rwa [find?_cons_eq, if_neg hy] at h
      simp only [updateFirst]
      rw [if_neg hy, find?_cons_eq, if_neg hy]
      exact ih hys

theorem pendingApprovedSum_updateFirst (t : Nat) (f : Commission → Commission)
    (l : List Commission) (c₀ : Commission)
    (h : l.find? (fun c => c.commissionId == t) = some c₀) :
    pendingApprovedSum (updateFirst (fun c => c.commissionId) t f l) =
      pendingApprovedSum l - commissionContribution c₀
        + commissionContribution (f c₀) := by
  induction l with
  | nil => simp at h
  | cons y ys ih =>
    by_cases hy : (y.commissionId == t) = true
    · have hyx : y = c₀ := by
        rw [find?_cons_eq, if_pos hy] at h
        exact Option.some.inj h
      subst hyx
      simp only [updateFirst, hy, if_pos]
      rw [pendingApprovedSum_cons, pendingApprovedSum_cons]
      ring
    · have hys : ys.find? (fun c => c.commissionId == t) = some c₀ := by
        rwa [find?_cons_eq, if_neg hy] at h
      simp only [updateFirst]
      rw [if_neg hy, pendingApprovedSum_cons, pendingApprovedSum_cons, ih hys]
      ring

/-- The bookkeeping invariant of the spec: earned minus paid equals the sum
    of the pending and approved commission amounts. -/
def commissionInvariant (a : Affiliate) : Prop :=
  a.stats.totalCommissionEarned - a.stats.totalCommissionPaid =
    pendingApprovedSum a.commissions

theorem commissionInvariant_applyOp (a : Affiliate) (op : AffiliateOp)
    (h : commissionInvariant a) : commissionInvariant (applyOp a op) := by
  cases op with
  | newReferral newId customerId email now =>
    simpa [applyOp, addReferral, commissionInvariant] using h
  | record rid od newId now =>
    cases hfind : a.referrals.find? (fun r => r.referralId == rid) with
    | none => simpa [applyOp, recordConversion, hfind] using h
    | some r =>
      simp only [applyOp, recordConversion, hfind, commissionInvariant] at h ⊢
      rw [pendingApprovedSum_append, pendingApprovedSum_cons,
        pendingApprovedSum_nil]
      simp only [commissionContribution]
      simp
      linarith [h]
  | approve cid adminId now =>
    cases hfind : a.commissions.find? (fun c => c.commissionId == cid) with
    | none => simpa [applyOp, approveCommission, hfind] using h
    | some c₀ =>
      by_cases hst : c₀.status = CommissionStatus.pending
      · simp only [applyOp, approveCommission, hfind, hst, if_pos,
          commissionInvariant] at h ⊢
        rw [pendingApprovedSum_updateFirst cid _ a.commissions c₀ hfind]
        simp only [commissionContribution, hst]
        simp
        linarith [h]
      · simpa [applyOp, approveCommission, hfind, hst] using h
  | pay cid pd now =>
    cases hfind : a.commissions.find? (fun c => c.commissionId == cid) with
    | none => simpa [applyOp, payCommission, hfind] using h
    | some c₀ =>
      by_cases hst : c₀.status = CommissionStatus.approved
      · simp only [applyOp, payCommission, hfind, hst, if_pos,
          commissionInvariant] at h ⊢
        rw [pendingApprovedSum_updateFirst cid _ a.commissions c₀ hfind]
        simp only [commissionContribution, hst]
        simp
        linarith [h]
      · simpa [applyOp, payCommission, hfind, hst] using h

theorem commissionInvariant_applyOps (a : Affiliate) (ops : List AffiliateOp)
    (h : commissionInvariant a) : commissionInvariant (applyOps a ops) := by
  induction ops generalizing a with
  | nil => simpa [applyOps] using h
  | cons op rest ih =>
    have h1 := commissionInvariant_applyOp a op h
    simpa [applyOps, List.foldl_cons] using ih (applyOp a op) h1

/-- A stats block with one recorded referral and everything else at 0. -/
def exStatsOneReferral : AffiliateStats :=
  { totalReferrals := 1
    successfulReferrals := 0
    totalCommissionEarned := 0
    totalCommissionPaid := 0
    pendingCommission := 0
    conversionRate := 0
    averageOrderValue := 0
    lifetimeValue := 0 }

/-- A referral in the initial signup state, with subdocument id 1. -/
def exReferral : Referral :=
  { referralId := 1
    customerId := 9
    customerEmail := "customer@example.com"
    signupDate := 0
    firstPurchaseDate := none
    totalSpent := 0
    commissionEarned := 0
    status := ReferralStatus.signup }

/-- An affiliate with a 50 percent rate and one unconverted referral. -/
def exAffiliateReady : Affiliate :=
  { name := "Ann"
    email := "ann@example.com"
    affStatus := "active"
    commissionRate := 1/2
    stats := exStatsOneReferral
    referrals := [exReferral]
    commissions := [] }

/-- A concrete order of amount 200. -/
def exOrder : OrderData := { orderId := "order-1", amount := 200 }

/-- Concrete payment data. -/
def exPayment : PaymentData := { method := "paypal", reference := "ref-1" }

/-- A pending commission of amount 100, subdocument id 1. -/
def exPendingCommission : Commission :=
  { commissionId := 1
    orderId := "order-1"
    customerId := 9
    orderAmount := 200
    commissionAmount := 100
    commissionRate := 1/2
    status := CommissionStatus.pending
    approvedBy := none
    approvedAt := none
    paidAt := none
    paymentMethod := none
    paymentReference := none
    createdAt := 0 }

/-- The same commission already approved. -/
def exApprovedCommission : Commission :=
  { exPendingCommission with
    status := CommissionStatus.approved
    approvedBy := some 3
    approvedAt := some 1 }

/-- An affiliate holding one pending commission. -/
def exAffiliateWithPending : Affiliate :=
  { exAffiliateReady with commissions := [exPendingCommission] }

/-- An affiliate holding one approved commission. -/
def exAffiliateWithApproved : Affiliate :=
  { exAffiliateReady with commissions := [exApprovedCommission] }

/-- C1: starting from a freshly created affiliate, after any sequence of
    lifecycle operations, totalCommissionEarned minus totalCommissionPaid
    equals the sum of the commissionAmount of the commissions whose status
    is pending or approved, and that difference is what the pendingPayout
    virtual returns. The operation type also includes addReferral, which is
    how referrals become available for conversion; the sequences of the
    claim are the special case with no newReferral step. -/
theorem affiliate_C1_pendingPayout_invariant (name email : String) (rate : Rat)
    (ops : List AffiliateOp) :
    pendingPayout (applyOps (freshAffiliate name email rate) ops) =
      pendingApprovedSum
        (applyOps (freshAffiliate name email rate) ops).commissions ∧
    (applyOps (freshAffiliate name email rate) ops).stats.totalCommissionEarned
      - (applyOps (freshAffiliate name email rate) ops).stats.totalCommissionPaid
      = pendingApprovedSum
        (applyOps (freshAffiliate name email rate) ops).commissions := by
  have h0 : commissionInvariant (freshAffiliate name email rate) := by
    simp [commissionInvariant, freshAffiliate, pendingApprovedSum]
  have h := commissionInvariant_applyOps (freshAffiliate name email rate) ops h0
  exact ⟨h, h⟩

/-- C2 counterexample: the claim states that recordConversion stores
    successfulReferrals divided by totalReferrals into stats.conversionRate,
    but the code stores the calculatedConversionRate virtual, which is that
    ratio times 100. On an affiliate with one referral and one success the
    stored value is 100 while the claimed value is 1. -/
theorem affiliate_C2_counterexample :
    (recordConversion exAffiliateReady 1 exOrder 1 0).stats.conversionRate
        = 100 ∧
    ((recordConversion exAffiliateReady 1 exOrder 1 0).stats.successfulReferrals
        : Rat)
      / ((recordConversion exAffiliateReady 1 exOrder 1 0).stats.totalReferrals
        : Rat) = 1 ∧
    (100 : Rat) ≠ (1 : Rat) := by
  refine ⟨?_, ?_, by norm_num⟩ <;>
    simp [recordConversion, exAffiliateReady, exReferral, exOrder,
      exStatsOneReferral, calculatedConversionRate, find?_cons_eq]

/-- C2 (amended): for a referral id present in the referrals list,
    recordConversion computes commissionAmount as order amount times
    commissionRate, appends a pending commission carrying that amount and
    the rate, increments successfulReferrals, totalCommissionEarned and
    pendingCommission, leaves totalReferrals alone, and stores into
    stats.conversionRate the percentage successfulReferrals divided by
    totalReferrals times 100, with 0 when totalReferrals is 0. -/
theorem affiliate_C2_recordConversion (a : Affiliate) (rid : Nat)
    (od : OrderData) (newId now : Nat) (r : Referral)
    (h : a.referrals.find? (fun x => x.referralId == rid) = some r) :
    (recordConversion a rid od newId now).commissions =
      a.commissions ++ [{
        commissionId := newId
        orderId := od.orderId
        customerId := r.customerId
        orderAmount := od.amount
        commissionAmount := od.amount * a.commissionRate
        commissionRate := a.commissionRate
        status := CommissionStatus.pending
        approvedBy := none
        approvedAt := none
        paidAt := none
        paymentMethod := none
        paymentReference := none
        createdAt := now }] ∧
    (recordConversion a rid od newId now).stats.successfulReferrals =
      a.stats.successfulReferrals + 1 ∧
    (recordConversion a rid od newId now).stats.totalReferrals =
      a.stats.totalReferrals ∧
    (recordConversion a rid od newId now).stats.totalCommissionEarned =
      a.stats.totalCommissionEarned + od.amount * a.commissionRate ∧
    (recordConversion a rid od newId now).stats.pendingCommission =
      a.stats.pendingCommission + od.amount * a.commissionRate ∧
    (recordConversion a rid od newId now).stats.conversionRate =
      (if a.stats.totalReferrals = 0 then 0
       else (((a.stats.successfulReferrals : Rat) + 1)
          / (a.stats.totalReferrals : Rat)) * 100) := by
  refine ⟨?_, ?_, ?_, ?_, ?_, ?_⟩ <;>
    simp [recordConversion, h, calculatedConversionRate]

/-- C2 witness: the amended theorem evaluated on a concrete affiliate. -/
theorem affiliate_C2_recordConversion_witness :
    (recordConversion exAffiliateReady 1 exOrder 1 0).stats.pendingCommission =
      exAffiliateReady.stats.pendingCommission
        + exOrder.amount * exAffiliateReady.commissionRate :=
  (affiliate_C2_recordConversion exAffiliateReady 1 exOrder 1 0 exReferral
    (by simp [exAffiliateReady, exReferral, find?_cons_eq])).2.2.2.2.1

/-- C3: on a commission found by id with status approved, payCommission
    marks it paid recording paidAt, paymentMethod and paymentReference,
    moves its amount from pendingCommission to totalCommissionPaid and
    leaves totalCommissionEarned alone; from any other status it changes
    nothing. -/
theorem affiliate_C3_payCommission (a : Affiliate) (cid : Nat)
    (pd : PaymentData) (now : Nat) (c₀ : Commission)
    (hfind : a.commissions.find? (fun c => c.commissionId == cid) = some c₀) :
    (c₀.status = CommissionStatus.approved →
      ((payCommission a cid pd now).commissions.find?
          (fun c => c.commissionId == cid) =
        some { c₀ with
          status := CommissionStatus.paid
          paidAt := some now
          paymentMethod := some pd.method
          paymentReference := some pd.reference }) ∧
      (payCommission a cid pd now).stats.pendingCommission =
        a.stats.pendingCommission - c₀.commissionAmount ∧
      (payCommission a cid pd now).stats.totalCommissionPaid =
        a.stats.totalCommissionPaid + c₀.commissionAmount ∧
      (payCommission a cid pd now).stats.totalCommissionEarned =
        a.stats.totalCommissionEarned) ∧
    (c₀.status ≠ CommissionStatus.approved →
      payCommission a cid pd now = a) := by
  constructor
  · intro hst
    have hupd := find?_updateFirst (fun c => c.commissionId) cid
      (fun c => { c with
        status := CommissionStatus.paid
        paidAt := some now
        paymentMethod := some pd.method
        paymentReference := some pd.reference }) a.commissions c₀ hfind rfl
    refine ⟨?_, ?_, ?_, ?_⟩ <;> simp [payCommission, hfind, hst, hupd]
  · intro hst
    simp [payCommission, hfind, hst]

/-- C3 witness: paying the approved commission of a concrete affiliate. -/
theorem affiliate_C3_payCommission_witness :
    (payCommission exAffiliateWithApproved 1 exPayment 5).stats.totalCommissionPaid
      = exAffiliateWithApproved.stats.totalCommissionPaid
        + exApprovedCommission.commissionAmount :=
  ((affiliate_C3_payCommission exAffiliateWithApproved 1 exPayment 5
      exApprovedCommission
      (by simp [exAffiliateWithApproved, exApprovedCommission,
        exPendingCommission, find?_cons_eq])).1
    (by simp [exApprovedCommission])).2.2.1

/-- C4: on a commission found by id with status pending, approveCommission
    marks it approved recording approvedBy and approvedAt and leaves every
    stats field unchanged; from any other status it changes nothing. -/
theorem affiliate_C4_approveCommission (a : Affiliate) (cid adminId now : Nat)
    (c₀ : Commission)
    (hfind : a.commissions.find? (fun c => c.commissionId == cid) = some c₀) :
    (c₀.status = CommissionStatus.pending →
      ((approveCommission a cid adminId now).commissions.find?
          (fun c => c.commissionId == cid) =
        some { c₀ with
          status := CommissionStatus.approved
          approvedBy := some adminId
          approvedAt := some now }) ∧
      (approveCommission a cid adminId now).stats = a.stats) ∧
    (c₀.status ≠ CommissionStatus.pending →
      approveCommission a cid adminId now = a) := by
  constructor
  · intro hst
    have hupd := find?_updateFirst (fun c => c.commissionId) cid
      (fun c => { c with
        status := CommissionStatus.approved
        approvedBy := some adminId
        approvedAt := some now }) a.commissions c₀ hfind rfl
    constructor <;> simp [approveCommission, hfind, hst, hupd]
  · intro hst
    simp [approveCommission, hfind, hst]

/-- C4 witness: approving the pending commission of a concrete affiliate. -/
theorem affiliate_C4_approveCommission_witness :
    (approveCommission exAffiliateWithPending 1 3 5).stats =
      exAffiliateWithPending.stats :=
  ((affiliate_C4_approveCommission exAffiliateWithPending 1 3 5
      exPendingCommission
      (by simp [exAffiliateWithPending, exPendingCommission,
        find?_cons_eq])).1
    (by simp [exPendingCommission])).2

/-- C5: an invalid state transition is a silent no-op, yet the route still
    answers with a success envelope: paying a commission that is not
    approved, or approving one that is not pending, leaves the affiliate
    unchanged while the route returns HTTP 200 with success true. -/
theorem affiliate_C5_invalid_transition (a : Affiliate) (cid adminId now : Nat)
    (pd : PaymentData) (c₀ : Commission)
    (hfind : a.commissions.find? (fun c => c.commissionId == cid) = some c₀) :
    (c₀.status ≠ CommissionStatus.approved →
      payCommission a cid pd now = a ∧
      payCommissionRoute (some a) cid pd now =
        (some a, ⟨200, true, "Commission paid successfully"⟩)) ∧
    (c₀.status ≠ CommissionStatus.pending →
      approveCommission a cid adminId now = a ∧
      approveCommissionRoute (some a) cid adminId now =
        (some a, ⟨200, true, "Commission approved successfully"⟩)) := by
  constructor
  · intro hst
    have hnoop : payCommission a cid pd now = a := by
      simp [payCommission, hfind, hst]
    exact ⟨hnoop, by simp [payCommissionRoute, hnoop]⟩
  · intro hst
    have hnoop : approveCommission a cid adminId now = a := by
      simp [approveCommission, hfind, hst]
    exact ⟨hnoop, by simp [approveCommissionRoute, hnoop]⟩

/-- C5 witness: paying a still pending commission changes nothing and the
    route still reports success. -/
theorem affiliate_C5_invalid_transition_witness :
    payCommission exAffiliateWithPending 1 exPayment 5 =
      exAffiliateWithPending ∧
    payCommissionRoute (some exAffiliateWithPending) 1 exPayment 5 =
      (some exAffiliateWithPending,
        ⟨200, true, "Commission paid successfully"⟩) :=
  (affiliate_C5_invalid_transition exAffiliateWithPending 1 3 5 exPayment
    exPendingCommission
    (by simp [exAffiliateWithPending, exPendingCommission,
      find?_cons_eq])).1
    (by simp [exPendingCommission])

/-- C6: approveCommission and payCommission are idempotent on the whole
    affiliate document: a second call with the same commission id, with any
    admin, timestamp or payment data, changes nothing, so an amount is
    moved from pendingCommission to totalCommissionPaid at most once. -/
theorem affiliate_C6_idempotent (a : Affiliate)
    (cid adminId₁ adminId₂ now₁ now₂ : Nat) (pd₁ pd₂ : PaymentData) :
    approveCommission (approveCommission a cid adminId₁ now₁) cid adminId₂ now₂
      = approveCommission a cid adminId₁ now₁ ∧
    payCommission (payCommission a cid pd₁ now₁) cid pd₂ now₂
      = payCommission a cid pd₁ now₁ := by
  constructor
  · cases hfind : a.commissions.find? (fun c => c.commissionId == cid) with
    | none =>
      have h1 : approveCommission a cid adminId₁ now₁ = a := by
        simp [approveCommission, hfind]
      rw [h1]
      simp [approveCommission, hfind]
    | some c₀ =>
      by_cases hst : c₀.status = CommissionStatus.pending
      · have hb : approveCommission a cid adminId₁ now₁ =
            { a with commissions := (updateFirst (fun c => c.commissionId) cid
              (fun c => { c with
                status := CommissionStatus.approved
                approvedBy := some adminId₁
                approvedAt := some now₁ }) a.commissions) } := by
          simp [approveCommission, hfind, hst]
        have hupd := find?_updateFirst (fun c => c.commissionId) cid
          (fun c => { c with
            status := CommissionStatus.approved
            approvedBy := some adminId₁
            approvedAt := some now₁ }) a.commissions c₀ hfind rfl
        rw [hb]
        simp [approveCommission, hupd]
      · have h1 : approveCommission a cid adminId₁ now₁ = a := by
          simp [approveCommission, hfind, hst]
        rw [h1]
        simp [approveCommission, hfind, hst]
  · cases hfind : a.commissions.find? (fun c => c.commissionId == cid) with
    | none =>
      have h1 : payCommission a cid pd₁ now₁ = a := by
        simp [payCommission, hfind]
      rw [h1]
      simp [payCommission, hfind]
    | some c₀ =>
      by_cases hst : c₀.status = CommissionStatus.approved
      · have hb : payCommission a cid pd₁ now₁ =
            { a with
              commissions := (updateFirst (fun c => c.commissionId) cid
                (fun c => { c with
                  status := CommissionStatus.paid
                  paidAt := some now₁
                  paymentMethod := some pd₁.method
                  paymentReference := some pd₁.reference }) a.commissions)
              stats := { a.stats with
                totalCommissionPaid :=
                  a.stats.totalCommissionPaid + c₀.commissionAmount
                pendingCommission :=
                  a.stats.pendingCommission - c₀.commissionAmount } } := by
          simp [payCommission, hfind, hst]
        have hupd := find?_updateFirst (fun c => c.commissionId) cid
          (fun c => { c with
            status := CommissionStatus.paid
            paidAt := some now₁
            paymentMethod := some pd₁.method
            paymentReference := some pd₁.reference }) a.commissions c₀ hfind rfl
        rw [hb]
        simp [payCommission, hupd]
      · have h1 : payCommission a cid pd₁ now₁ = a := by
          simp [payCommission, hfind, hst]
        rw [h1]
        simp [payCommission, hfind, hst]

theorem mathCeilPages_eq (total limit : Nat) (h : 0 < limit) :
    mathCeilPages total limit = (total + limit - 1) / limit := by
  have hq : (0 : Rat) < (limit : Rat) := by exact_mod_cast h
  rcases Nat.eq_zero_or_pos total with h0 | h0
  · have hz : (limit - 1) / limit = 0 := Nat.div_eq_of_lt (by omega)
    subst h0
    simp [mathCeilPages, hz]
  · apply le_antisymm
    · unfold mathCeilPages
      rw [Nat.ceil_le, div_le_iff₀ hq]
      have hlt : total + limit - 1 <
          ((total + limit - 1) / limit + 1) * limit :=
        (Nat.div_lt_iff_lt_mul h).mp (Nat.lt_succ_self _)
      have key : total ≤ ((total + limit - 1) / limit) * limit := by
        have hexp : ((total + limit - 1) / limit + 1) * limit =
            ((total + limit - 1) / limit) * limit + limit := by ring
        rw [hexp] at hlt
        omega
      exact_mod_cast key
    · set q := (total + limit - 1) / limit with hqdef
      rcases Nat.eq_zero_or_pos q with hq0 | hq0
      · simp [hq0]
      · have hmul : q * limit ≤ total + limit - 1 := by
          rw [hqdef]
          exact Nat.div_mul_le_self _ _
        have hq1 : q - 1 + 1 = q := by omega
        unfold mathCeilPages
        rw [← hq1, Nat.add_one_le_ceil_iff, lt_div_iff₀ hq]
        have key : (q - 1) * limit < total := by
          have hsub : (q - 1) * limit = q * limit - limit := by
            rw [Nat.sub_mul, one_mul]
          have hlim : limit ≤ q * limit := Nat.le_mul_of_pos_left _ hq0
          omega
        exact_mod_cast key

/-- C7: every paginated list route reports totalPages (or pagination.pages)
    equal to the ceiling of total divided by limit, and returns the slice of
    the sorted result set at offset (page minus 1) times limit, holding at
    most limit items, the item at slice position i being the sorted item at
    the offset plus i. -/
theorem routes_C7_pagination {α : Type} (sorted : List α) (page limit : Nat)
    (h : 0 < limit) :
    (affiliatesListRoute sorted page limit).totalPages
      = (sorted.length + limit - 1) / limit ∧
    (customersListRoute sorted page limit).totalPages
      = (sorted.length + limit - 1) / limit ∧
    (filesListRoute sorted page limit).pages
      = (sorted.length + limit - 1) / limit ∧
    (affiliatesListRoute sorted page limit).affiliates
      = (sorted.drop ((page - 1) * limit)).take limit ∧
    (customersListRoute sorted page limit).customers
      = (sorted.drop ((page - 1) * limit)).take limit ∧
    (filesListRoute sorted page limit).files
      = (sorted.drop ((page - 1) * limit)).take limit ∧
    (affiliatesListRoute sorted page limit).affiliates.length ≤ limit ∧
    (∀ i, i < limit →
      (affiliatesListRoute sorted page limit).affiliates[i]?
        = sorted[(page - 1) * limit + i]?) := by
  refine ⟨mathCeilPages_eq _ _ h, mathCeilPages_eq _ _ h,
    mathCeilPages_eq _ _ h, rfl, rfl, rfl, ?_, ?_⟩
  · simp [affiliatesListRoute, pageSlice]
  · intro i hi
    simp [affiliatesListRoute, pageSlice, List.getElem?_take, hi,
      List.getElem?_drop]

/-- C7 witness: a five element list with limit 2 and page 2 yields 3 pages
    and the middle slice. -/
theorem routes_C7_pagination_witness :
    (affiliatesListRoute [10, 20, 30, 40, 50] 2 2).totalPages
      = (([10, 20, 30, 40, 50] : List Nat).length + 2 - 1) / 2 ∧
    (affiliatesListRoute [10, 20, 30, 40, 50] 2 2).affiliates
      = (([10, 20, 30, 40, 50] : List Nat).drop ((2 - 1) * 2)).take 2 :=
  ⟨(routes_C7_pagination ([10, 20, 30, 40, 50] : List Nat) 2 2
      (by norm_num)).1,
   (routes_C7_pagination ([10, 20, 30, 40, 50] : List Nat) 2 2
      (by norm_num)).2.2.2.1⟩

/-- An existing stored user with a lowercase email. -/
def exUser : UserDoc :=
  { name := "Bob"
    email := "bob@example.com"
    password := "pw"
    role := "customer"
    position := "Member"
    userStatus := "active" }

/-- A one element user collection. -/
def exUsers : List UserDoc := [exUser]

/-- A create-user request that duplicates the stored email but carries an
    invalid role. -/
def exBadRoleReq : CreateUserRequest :=
  { name := "Eve"
    email := "bob@example.com"
    password := "pw2"
    role := "chief"
    reqStatus := "" }

/-- A register request duplicating the stored email. -/
def exDupRegisterReq : RegisterRequest :=
  { name := "Eve"
    email := "bob@example.com"
    password := "pw2"
    business := "b1"
    position := ""
    role := "" }

/-- C8 counterexample: a create-user request whose email equals a stored
    email but whose role is invalid is answered with 400 Invalid role, not
    with the 409 conflict the claim promises for every duplicate-email
    request, because routes/users.js validates the role before the email
    check. -/
theorem users_C8_counterexample :
    (exUsers.find? (fun u => u.email == jsToLower exBadRoleReq.email)).isSome
      = true ∧
    createUserRoute "main_admin" exUsers exBadRoleReq
      = (exUsers, 400, "Invalid role specified.") := by
  constructor
  · decide
  · decide

/-- C8 (amended): for requests that reach the duplicate-email check (the
    register route always does; create-user only after the authorization,
    required-field and role checks pass), a duplicate email is answered 409
    and the collection is unchanged, and a record is created exactly when no
    user or affiliate with that email exists. -/
theorem users_C8_email_conflict (users : List UserDoc) (affs : List Affiliate)
    (rq : RegisterRequest) (crq : CreateUserRequest)
    (aname aemail : String) (rate : Rat) :
    ((users.find? (fun u => u.email == rq.email)).isSome = true →
      registerRoute users rq = (users, 409)) ∧
    (users.find? (fun u => u.email == rq.email) = none →
      (registerRoute users rq).2 = 201 ∧
      (registerRoute users rq).1.length = users.length + 1) ∧
    (crq.name ≠ "" → crq.email ≠ "" → crq.password ≠ "" → crq.role ≠ "" →
      validRoles.contains (jsToLower crq.role) = true →
      (users.find? (fun u => u.email == jsToLower crq.email)).isSome = true →
      createUserRoute "main_admin" users crq =
        (users, 409, "A user with this email already exists.")) ∧
    ((affs.find? (fun x => x.email == jsToLower aemail)).isSome = true →
      createAffiliateRoute affs aname aemail rate = (affs, 409)) ∧
    (affs.find? (fun x => x.email == jsToLower aemail) = none →
      (createAffiliateRoute affs aname aemail rate).2 = 201 ∧
      (createAffiliateRoute affs aname aemail rate).1.length
        = affs.length + 1) := by
  refine ⟨?_, ?_, ?_, ?_, ?_⟩
  · intro hs
    cases hfind : users.find? (fun u => u.email == rq.email) with
    | none => rw [hfind] at hs; simp at hs
    | some u => simp [registerRoute, hfind]
  · intro hnone
    constructor <;> simp [registerRoute, hnone]
  · intro h1 h2 h3 h4 h5 hs
    have h5m : jsToLower crq.role ∈ validRoles := by simpa using h5
    cases hfind : users.find? (fun u => u.email == jsToLower crq.email) with
    | none => rw [hfind] at hs; simp at hs
    | some u => simp [createUserRoute, h1, h2, h3, h4, h5m, hfind]
  · intro hs
    cases hfind : affs.find? (fun x => x.email == jsToLower aemail) with
    | none => rw [hfind] at hs; simp at hs
    | some x => simp [createAffiliateRoute, hfind]
  · intro hnone
    constructor <;> simp [createAffiliateRoute, hnone]

/-- C8 witness: registering with the stored email leaves the collection
    unchanged and answers 409. -/
theorem users_C8_email_conflict_witness :
    registerRoute exUsers exDupRegisterReq = (exUsers, 409) :=
  (users_C8_email_conflict exUsers [] exDupRegisterReq exBadRoleReq
    "A" "a@b.example" 0).1 (by decide)

/-- C9: the customer status route accepts exactly active, inactive and
    suspended; any other body value, including the pending value that the
    User schema enum otherwise allows, is answered 400 Invalid status with
    the document unchanged, and an accepted value is written to the status
    field. -/
theorem admin_C9_customer_status (u : UserDoc) (s : String) :
    (allowedCustomerStatuses.contains s = false →
      updateCustomerStatusRoute (some u) s = (some u, 400, "Invalid status")) ∧
    (allowedCustomerStatuses.contains s = true →
      updateCustomerStatusRoute (some u) s =
        (some { u with userStatus := s }, 200,
          "Customer status updated to " ++ s)) ∧
    updateCustomerStatusRoute (some u) "pending" =
      (some u, 400, "Invalid status") ∧
    userStatusEnum.contains "pending" = true := by
  have hp : allowedCustomerStatuses.contains "pending" = false := by decide
  refine ⟨?_, ?_, ?_, by decide⟩
  · intro hs
    have hs2 : s ∉ allowedCustomerStatuses := by simpa using hs
    simp [updateCustomerStatusRoute, hs2]
  · intro hs
    have hs2 : s ∈ allowedCustomerStatuses := by simpa using hs
    simp [updateCustomerStatusRoute, hs2]
  · have hp2 : "pending" ∉ allowedCustomerStatuses := by simpa using hp
    simp [updateCustomerStatusRoute, hp2]

/-- C9 witness: suspending a concrete customer writes the status, and a
    pending request is rejected without a change. -/
theorem admin_C9_customer_status_witness :
    updateCustomerStatusRoute (some exUser) "suspended" =
      (some { exUser with userStatus := "suspended" }, 200,
        "Customer status updated to " ++ "suspended") :=
  (admin_C9_customer_status exUser "suspended").2.1 (by decide)

/-- C10: calculatedConversionRate is total, returning 0 when totalReferrals
    is 0 and the percentage otherwise, and recordConversion stores exactly
    this virtual of the updated document into stats.conversionRate. -/
theorem affiliate_C10_conversionRate (a : Affiliate) (rid : Nat)
    (od : OrderData) (newId now : Nat) (r : Referral) :
    (a.stats.totalReferrals = 0 → calculatedConversionRate a = 0) ∧
    (a.stats.totalReferrals ≠ 0 →
      calculatedConversionRate a =
        ((a.stats.successfulReferrals : Rat)
          / (a.stats.totalReferrals : Rat)) * 100) ∧
    (a.referrals.find? (fun x => x.referralId == rid) = some r →
      (recordConversion a rid od newId now).stats.conversionRate =
        calculatedConversionRate (recordConversion a rid od newId now)) := by
  refine ⟨?_, ?_, ?_⟩
  · intro h
    simp [calculatedConversionRate, h]
  · intro h
    simp [calculatedConversionRate, h]
  · intro hfind
    simp [recordConversion, hfind, calculatedConversionRate]

/-- C10 witness: the zero guard on a fresh affiliate and the stored virtual
    on a concrete conversion. -/
theorem affiliate_C10_conversionRate_witness :
    calculatedConversionRate (freshAffiliate "F" "f@example.com" (1/10)) = 0 ∧
    (recordConversion exAffiliateReady 1 exOrder 1 0).stats.conversionRate =
      calculatedConversionRate (recordConversion exAffiliateReady 1 exOrder 1 0)
    :=
  ⟨(affiliate_C10_conversionRate (freshAffiliate "F" "f@example.com" (1/10))
      0 exOrder 0 0 exReferral).1 rfl,
   (affiliate_C10_conversionRate exAffiliateReady 1 exOrder 1 0
      exReferral).2.2
     (by simp [exAffiliateReady, exReferral, find?_cons_eq])⟩

end VBMS
